import Mathlib

/-!
Shallow embedding of the LLM documentation-agent repository
(main.py, workflow_analyzer.py, documentation_publisher.py,
src/repository_handler.py, src/llm_agent.py) together with theorems
settling the spec claims about it.

Filesystem reads are modelled by passing the walked file list explicitly;
the external model endpoint is modelled by oracle functions from the
per-file inputs that determine each prompt to reply text, and JSON parsing
of replies is modelled by an abstract parse function returning an Option,
since both are external collaborators of the program.

Python string primitives (split, strip, startswith, endswith, lower) are
re-implemented on character lists by structural recursion so that every
definition evaluates inside the kernel.
-/

namespace LLMDoc

/-! Python string helpers used by the embedded code. -/

/-- Character-list equality test used to model Python string equality. -/
def strEq (a b : String) : Bool :=
  a.data == b.data

/-- Does the first character list start with the second one? -/
def charsStartWith : List Char → List Char → Bool
  | _, [] => true
  | [], _ :: _ => false
  | c :: cs, p :: ps => c == p && charsStartWith cs ps

/-- Models Python `s.startswith(pat)`. -/
def strStartsWith (s pat : String) : Bool :=
  charsStartWith s.data pat.data

/-- Models Python `s.endswith(pat)`. -/
def strEndsWith (s pat : String) : Bool :=
  charsStartWith s.data.reverse pat.data.reverse

/-- The ASCII whitespace characters removed by Python `str.strip()`. -/
def isPySpace (c : Char) : Bool :=
  c == ' ' || c == '\t' || c == '\n' || c == '\r' || c == '\x0b' || c == '\x0c'

/-- Models Python `s.strip()` (on ASCII whitespace). -/
def strTrim (s : String) : String :=
  String.mk (((s.data.dropWhile isPySpace).reverse.dropWhile isPySpace).reverse)

/-- Fuelled worker for split: scans left to right for the leftmost
non-overlapping occurrences of the (non-empty) separator. The fuel is one
more than the remaining length, so the fuel-exhausted case is never
reached. -/
def splitOnFuel (sep : List Char) : Nat → List Char → List Char → List (List Char)
  | 0, rest, acc => [acc.reverse ++ rest]
  | _ + 1, [], acc => [acc.reverse]
  | fuel + 1, c :: cs, acc =>
    if charsStartWith (c :: cs) sep then
      acc.reverse :: splitOnFuel sep fuel (List.drop sep.length (c :: cs)) []
    else
      splitOnFuel sep fuel cs (c :: acc)

/-- Models Python `s.split(sep)` for a non-empty separator. -/
def splitOnStr (s sep : String) : List String :=
  if sep.data == [] then [s]
  else (splitOnFuel sep.data (s.data.length + 1) s.data []).map String.mk

/-- Models the Python test `pat in s` (substring containment) for a
non-empty pattern: split yields more than one part exactly when the
separator occurs in the string. -/
def strContainsSub (s pat : String) : Bool :=
  (splitOnStr s pat).length > 1

/-- Models `os.path.basename` for the relative paths produced by the walk:
the component after the last forward slash. -/
def baseName (path : String) : String :=
  (splitOnStr path "/").getLastD ""

/-- ASCII lowercase of one character, as Python `str.lower` does on the
extensions that occur here. -/
def charLower (c : Char) : Char :=
  if 'A' ≤ c && c ≤ 'Z' then Char.ofNat (c.toNat + 32) else c

/-- Models Python `s.lower()` on ASCII strings. -/
def strLower (s : String) : String :=
  String.mk (s.data.map charLower)

/-- Models `os.path.splitext(filename)[1]` on a slash-free filename: the
suffix starting at the last dot, provided some character strictly before
that dot is not itself a dot (so a leading-dot name like `.gitignore` has
no extension). -/
def splitextExt (filename : String) : String :=
  let cs := filename.data
  let dotIdxs := (List.range cs.length).filter (fun i => cs.getD i ' ' == '.')
  match dotIdxs.getLast? with
  | none => ""
  | some i =>
    if (List.range i).any (fun j => cs.getD j ' ' != '.') then
      String.mk (cs.drop i)
    else ""

/-! Embedding of src/repository_handler.py. -/

/-- One file of the repository tree as `os.walk` sees it: the path
relative to the repository root, whether reading its first 1KB as text
succeeds (no UnicodeDecodeError, i.e. `_is_binary_file` returns False),
its byte size, and its decoded text content (meaningful when readable). -/
structure RepoFile where
  path : String
  readableAsText : Bool
  size : Nat
  content : String
deriving Repr, DecidableEq

/-- An entry of `repo_structure` under the files key: relative path, category label
from `_determine_file_type`, byte size. -/
structure FileRecord where
  path : String
  type : String
  size : Nat
deriving Repr, DecidableEq

/-- The `dependencies` dict built by `_identify_dependencies`, with its
three fixed ecosystem keys. -/
structure Dependencies where
  python : List String
  r : List String
  system : List String
deriving Repr, DecidableEq

/-- The dict returned by `analyze_repository_structure`. The `languages`
dict is modelled as an insertion-ordered association list. -/
structure RepoStructure where
  name : String
  path : String
  files : List FileRecord
  languages : List (String × Nat)
  entry_points : List String
  dependencies : Dependencies
deriving Repr, DecidableEq

/-- Models `RepositoryHandler._determine_file_type`: lowercase the
extension and look it up in the fixed table, defaulting to "other". -/
def determineFileType (filename : String) : String :=
  let ext := strLower (splitextExt filename)
  if strEq ext ".py" then "python"
  else if strEq ext ".r" || strEq ext ".rmd" then "r"
  else if strEq ext ".sh" || strEq ext ".bash" then "shell"
  else if strEq ext ".c" || strEq ext ".cpp" || strEq ext ".cc" ||
      strEq ext ".h" || strEq ext ".hpp" then "c++"
  else if strEq ext ".java" then "java"
  else if strEq ext ".js" || strEq ext ".ts" then "javascript"
  else if strEq ext ".md" || strEq ext ".markdown" then "markdown"
  else if strEq ext ".json" then "json"
  else if strEq ext ".yml" || strEq ext ".yaml" then "yaml"
  else if strEq ext ".txt" then "text"
  else if strEq ext ".csv" || strEq ext ".tsv" then "data"
  else "other"

/-- Models the Python dict update
`languages[t] += 1` / `languages[t] = 1` on an insertion-ordered
association list: an existing key is bumped in place, a new key is
appended. -/
def bumpCount : List (String × Nat) → String → List (String × Nat)
  | [], k => [(k, 1)]
  | (k', n) :: rest, k =>
    if strEq k' k then (k', n + 1) :: rest else (k', n) :: bumpCount rest k

/-- Models `RepositoryHandler._identify_entry_points`: collect, in file
order, paths ending in main.py / run.py / app.py, else paths under bin/
with a python, r or shell category, else paths ending in setup.py. -/
def identifyEntryPoints (files : List FileRecord) : List String :=
  files.foldl
    (fun acc file =>
      if strEndsWith file.path "main.py" || strEndsWith file.path "run.py" ||
          strEndsWith file.path "app.py" then
        acc ++ [file.path]
      else if strStartsWith file.path "bin/" &&
          (strEq file.type "python" || strEq file.type "r" ||
            strEq file.type "shell") then
        acc ++ [file.path]
      else if strEndsWith file.path "setup.py" then
        acc ++ [file.path]
      else acc)
    []

/-- Models the requirements.txt line test `if line and not
line.startswith("#")` applied to the stripped line. -/
def isRequirementLine (line : String) : Bool :=
  !(strEq line "") && !(strStartsWith line "#")

/-- Models the requirements.txt loop of `_identify_dependencies`: strip
each line, keep the non-blank non-comment ones verbatim, in order. -/
def pythonRequirements (content : String) : List String :=
  (splitOnStr content "\n").foldl
    (fun acc rawLine =>
      if isRequirementLine (strTrim rawLine) then acc ++ [strTrim rawLine]
      else acc)
    []

/-- Models `line.strip().split(",")[0]` from the DESCRIPTION loop of
`_identify_dependencies`: the text before the first comma of the stripped
line. -/
def firstCommaField (line : String) : String :=
  (splitOnStr (strTrim line) ",").headD ""

/-- Models the part of `_identify_dependencies` that reads a DESCRIPTION
manifest: when "Imports:" occurs, take part 1 of the split of the
content on the marker, cut it at the first blank line, and for each line of
that section keep only the field before the first comma when it is
non-empty. -/
def rImports (content : String) : List String :=
  if strContainsSub content "Imports:" then
    let importsSection :=
      (splitOnStr ((splitOnStr content "Imports:").getD 1 "") "\n\n").headD ""
    (splitOnStr importsSection "\n").foldl
      (fun acc rawLine =>
        if !(strEq (firstCommaField rawLine) "") then
          acc ++ [firstCommaField rawLine]
        else acc)
      []
  else []

/-- Looks up a root-level manifest file in the walked file list, modelling
`os.path.exists(os.path.join(self.repo_path, name))` plus reading it. -/
def rootFileContent (repo : List RepoFile) (name : String) : Option String :=
  (repo.find? (fun f => strEq f.path name)).map RepoFile.content

/-- Models `RepositoryHandler._identify_dependencies`: python deps from
requirements.txt when present, r deps from a DESCRIPTION manifest when
present, system deps always empty. -/
def identifyDependencies (repo : List RepoFile) : Dependencies :=
  { python :=
      match rootFileContent repo "requirements.txt" with
      | some content => pythonRequirements content
      | none => []
    r :=
      match rootFileContent repo "DESCRIPTION" with
      | some content => rImports content
      | none => []
    system := [] }

/-- Models the per-file step of the walk loop in
`analyze_repository_structure`: skip the file when `_is_binary_file` holds
or its size exceeds 1,000,000 bytes, otherwise append its FileRecord and
bump the language count of its category. -/
def walkStep (st : List FileRecord × List (String × Nat)) (f : RepoFile) :
    List FileRecord × List (String × Nat) :=
  if f.readableAsText = false ∨ f.size > 1000000 then st
  else
    let t := determineFileType (baseName f.path)
    (st.1 ++ [{ path := f.path, type := t, size := f.size }], bumpCount st.2 t)

/-- Models `RepositoryHandler.analyze_repository_structure` on the walked
file list: build the file records and language counts, then the entry
points from the records and the dependencies from the manifests. -/
def analyzeRepositoryStructure (repoName repoPath : String)
    (repo : List RepoFile) : RepoStructure :=
  let filesLangs := repo.foldl walkStep ([], [])
  { name := repoName
    path := repoPath
    files := filesLangs.1
    languages := filesLangs.2
    entry_points := identifyEntryPoints filesLangs.1
    dependencies := identifyDependencies repo }

/-! Characterization lemmas for the folds above. -/

/-- A fold that conditionally appends a transformed element is the
filtered map. -/
theorem foldl_append_if_eq (g : α → β) (p : β → Bool) :
    ∀ (l : List α) (acc : List β),
      l.foldl (fun a x => if p (g x) then a ++ [g x] else a) acc =
        acc ++ ((l.map g).filter p)
  | [], acc => by simp
  | x :: l, acc => by
    have step : (x :: l).foldl (fun a y => if p (g y) then a ++ [g y] else a) acc
        = l.foldl (fun a y => if p (g y) then a ++ [g y] else a)
            (if p (g x) then acc ++ [g x] else acc) := rfl
    rw [step, foldl_append_if_eq g p l]
    by_cases h : p (g x) <;> simp [h, List.filter_cons]

/-- The file-record component of the walk fold is the filtered map of the
input files. -/
theorem walk_files_eq :
    ∀ (repo : List RepoFile) (fs : List FileRecord) (ls : List (String × Nat)),
      (repo.foldl walkStep (fs, ls)).1 =
        fs ++ ((repo.filter
            (fun f => f.readableAsText && !(f.size > 1000000 : Bool))).map
          (fun f =>
            { path := f.path, type := determineFileType (baseName f.path),
              size := f.size }))
  | [], fs, ls => by simp
  | f :: repo, fs, ls => by
    have step : ((f :: repo).foldl walkStep (fs, ls))
        = repo.foldl walkStep (walkStep (fs, ls) f) := rfl
    rw [step]
    by_cases h : f.readableAsText = false ∨ f.size > 1000000
    · have hb : (f.readableAsText && !(f.size > 1000000 : Bool)) = false := by
        rcases h with h | h
        · simp [h]
        · simp [decide_eq_true h]
      rw [show walkStep (fs, ls) f = (fs, ls) from by simp [walkStep, h]]
      rw [walk_files_eq repo fs ls]
      simp [List.filter_cons, hb]
    · have h1 : f.readableAsText = true := by
        rcases Bool.eq_false_or_eq_true f.readableAsText with ht | hf
        · exact ht
        · exact absurd (Or.inl hf) h
      have h2 : ¬ f.size > 1000000 := fun hgt => h (Or.inr hgt)
      have hb : (f.readableAsText && !(f.size > 1000000 : Bool)) = true := by
        simp [h1, h2]
      rw [show walkStep (fs, ls) f
          = (fs ++ [{ path := f.path,
                      type := determineFileType (baseName f.path),
                      size := f.size }],
             bumpCount ls (determineFileType (baseName f.path))) from by
        simp [walkStep, h]]
      rw [walk_files_eq repo _ _]
      simp [List.filter_cons, hb]

/-- The file records produced by `analyze_repository_structure` are
exactly those of the readable, at-most-1,000,000-byte files, in walk
order. -/
theorem analyze_files_eq (repoName repoPath : String) (repo : List RepoFile) :
    (analyzeRepositoryStructure repoName repoPath repo).files =
      (repo.filter
          (fun f => f.readableAsText && !(f.size > 1000000 : Bool))).map
        (fun f =>
          { path := f.path, type := determineFileType (baseName f.path),
            size := f.size }) := by
  have h := walk_files_eq repo [] []
  simpa [analyzeRepositoryStructure] using h

/-- The python dependency list is the stripped non-blank non-comment lines
of requirements.txt, in order. -/
theorem pythonRequirements_eq (content : String) :
    pythonRequirements content =
      (((splitOnStr content "\n").map strTrim).filter isRequirementLine) := by
  have h := foldl_append_if_eq strTrim isRequirementLine
    (splitOnStr content "\n") []
  simpa [pythonRequirements] using h

/-- The entry-point list of the analysis is the entry-point scan of its
file records. -/
theorem analyze_entry_points_eq (repoName repoPath : String)
    (repo : List RepoFile) :
    (analyzeRepositoryStructure repoName repoPath repo).entry_points =
      identifyEntryPoints
        ((analyzeRepositoryStructure repoName repoPath repo).files) := rfl

/-- The dependencies of the analysis are the manifest scan of the walked
list. -/
theorem analyze_dependencies_eq (repoName repoPath : String)
    (repo : List RepoFile) :
    (analyzeRepositoryStructure repoName repoPath repo).dependencies =
      identifyDependencies repo := rfl

/-- C2: a file whose first-1KB text decode fails, or whose size exceeds
1,000,000 bytes, yields no FileRecord in the analysis result (assuming the
walked paths are distinct, as they are for a real file tree). -/
theorem binary_or_oversized_files_excluded (repoName repoPath : String)
    (repo : List RepoFile) (f : RepoFile)
    (hnd : (repo.map RepoFile.path).Nodup)
    (hf : f ∈ repo)
    (hbad : f.readableAsText = false ∨ f.size > 1000000) :
    ∀ rec ∈ (analyzeRepositoryStructure repoName repoPath repo).files,
      rec.path ≠ f.path := by
  intro rec hrec heq
  rw [analyze_files_eq] at hrec
  rcases List.mem_map.mp hrec with ⟨g, hgfilter, hgeq⟩
  rcases List.mem_filter.mp hgfilter with ⟨hgmem, hgkeep⟩
  have hrp : rec.path = g.path := by rw [← hgeq]
  have hpath : g.path = f.path := by rw [← hrp, heq]
  have hgf : g = f := List.inj_on_of_nodup_map hnd hgmem hf hpath
  subst hgf
  rcases hbad with hb | hb
  · rw [hb] at hgkeep; simp at hgkeep
  · simp [decide_eq_true hb] at hgkeep

/-- Witness for C2: in a two-file tree whose first file is unreadable as
text, no record for that file appears. -/
theorem binary_or_oversized_files_excluded_witness :
    ({ path := "a.bin", type := "other", size := 10 } : FileRecord) ∉
      (analyzeRepositoryStructure "r" "p"
        [{ path := "a.bin", readableAsText := false, size := 10, content := "" },
         { path := "b.py", readableAsText := true, size := 5, content := "x" }]).files := by
  intro hmem
  exact binary_or_oversized_files_excluded "r" "p"
    [{ path := "a.bin", readableAsText := false, size := 10, content := "" },
     { path := "b.py", readableAsText := true, size := 5, content := "x" }]
    { path := "a.bin", readableAsText := false, size := 10, content := "" }
    (by decide) (by decide) (Or.inl rfl) _ hmem rfl

/-- C1: a tree holding exactly main.py (readable, at most 1,000,000 bytes)
and requirements.txt (readable) whose stripped non-blank non-comment line
count is 2, in either walk order, analyzes to entry points exactly
["main.py"] and a python dependency list of length 2. -/
theorem scenario_a_entry_points_and_deps (repoName repoPath : String)
    (mainContent reqContent : String) (msz rsz : Nat) (repo : List RepoFile)
    (hrepo :
      repo = [{ path := "main.py", readableAsText := true, size := msz,
                content := mainContent },
              { path := "requirements.txt", readableAsText := true, size := rsz,
                content := reqContent }] ∨
      repo = [{ path := "requirements.txt", readableAsText := true, size := rsz,
                content := reqContent },
              { path := "main.py", readableAsText := true, size := msz,
                content := mainContent }])
    (hms : msz ≤ 1000000)
    (hreq : (((splitOnStr reqContent "\n").map strTrim).filter
        isRequirementLine).length = 2) :
    (analyzeRepositoryStructure repoName repoPath repo).entry_points =
      ["main.py"] ∧
    (analyzeRepositoryStructure repoName repoPath repo).dependencies.python.length
      = 2 := by
  have hmlt : ¬ (1000000 < msz) := by omega
  rcases hrepo with h | h <;> subst h
  · constructor
    · rw [analyze_entry_points_eq, analyze_files_eq]
      by_cases hr : 1000000 < rsz
      · simp only [List.filter_cons, decide_eq_false hmlt, decide_eq_true hr,
          Bool.not_true, Bool.and_false, Bool.true_and, Bool.not_false,
          Bool.and_true, if_false, if_true]
        rfl
      · simp only [List.filter_cons, decide_eq_false hmlt, decide_eq_false hr,
          Bool.not_true, Bool.and_false, Bool.true_and, Bool.not_false,
          Bool.and_true, if_false, if_true]
        rfl
    · have hfind : rootFileContent
          [{ path := "main.py", readableAsText := true, size := msz,
             content := mainContent },
           { path := "requirements.txt", readableAsText := true, size := rsz,
             content := reqContent }] "requirements.txt" = some reqContent := rfl
      rw [analyze_dependencies_eq]
      simp [identifyDependencies, hfind, pythonRequirements_eq, hreq]
  · constructor
    · rw [analyze_entry_points_eq, analyze_files_eq]
      by_cases hr : 1000000 < rsz
      · simp only [List.filter_cons, decide_eq_false hmlt, decide_eq_true hr,
          Bool.not_true, Bool.and_false, Bool.true_and, Bool.not_false,
          Bool.and_true, if_false, if_true]
        rfl
      · simp only [List.filter_cons, decide_eq_false hmlt, decide_eq_false hr,
          Bool.not_true, Bool.and_false, Bool.true_and, Bool.not_false,
          Bool.and_true, if_false, if_true]
        rfl
    · have hfind : rootFileContent
          [{ path := "requirements.txt", readableAsText := true, size := rsz,
             content := reqContent },
           { path := "main.py", readableAsText := true, size := msz,
             content := mainContent }] "requirements.txt" = some reqContent := rfl
      rw [analyze_dependencies_eq]
      simp [identifyDependencies, hfind, pythonRequirements_eq, hreq]

/-- Witness for C1: a concrete two-file tree with two listed
dependencies. -/
theorem scenario_a_entry_points_and_deps_witness :
    (analyzeRepositoryStructure "demo" "/tmp/demo"
      [{ path := "main.py", readableAsText := true, size := 20,
         content := "x = 1\n" },
       { path := "requirements.txt", readableAsText := true, size := 30,
         content := "numpy\n# comment\npandas\n" }]).entry_points =
      ["main.py"] ∧
    (analyzeRepositoryStructure "demo" "/tmp/demo"
      [{ path := "main.py", readableAsText := true, size := 20,
         content := "x = 1\n" },
       { path := "requirements.txt", readableAsText := true, size := 30,
         content := "numpy\n# comment\npandas\n" }]).dependencies.python.length
      = 2 :=
  scenario_a_entry_points_and_deps "demo" "/tmp/demo" "x = 1\n"
    "numpy\n# comment\npandas\n" 20 30 _ (Or.inl rfl) (by omega) (by decide)

/-! Embedding of src/llm_agent.py. -/

/-- The fixed `max_retries` of `LLMAgent.__init__`. -/
def maxRetries : Nat := 3

/-- The fixed `retry_delay` (seconds) of `LLMAgent.__init__`. -/
def retryDelay : Nat := 5

/-- Observable outcome of `LLMAgent.query`: the returned text or the
re-raised error, the number of underlying endpoint calls made, and the
sleeps performed between attempts, in order. -/
structure QueryTrace (eps sig : Type) where
  result : Except eps sig
  calls : Nat
  delays : List Nat
deriving Repr

/-- Models the retry loop of `LLMAgent.query`. The oracle gives the
outcome of the underlying `chat.completions.create` call at each attempt
index; `remaining` counts the attempts still allowed (initially
`max_retries`), and a retry is taken exactly when
`attempt < max_retries - 1`, i.e. when more than one attempt remains,
after sleeping `retry_delay`. -/
def queryAux (oracle : Nat → Except eps sig) : Nat → Nat → QueryTrace eps sig
  | attempt, 0 =>
    match oracle attempt with
    | Except.ok s => ⟨Except.ok s, 1, []⟩
    | Except.error e => ⟨Except.error e, 1, []⟩
  | attempt, 1 =>
    match oracle attempt with
    | Except.ok s => ⟨Except.ok s, 1, []⟩
    | Except.error e => ⟨Except.error e, 1, []⟩
  | attempt, r + 2 =>
    match oracle attempt with
    | Except.ok s => ⟨Except.ok s, 1, []⟩
    | Except.error _ =>
      let rest := queryAux oracle (attempt + 1) (r + 1)
      ⟨rest.result, rest.calls + 1, retryDelay :: rest.delays⟩

/-- Models `LLMAgent.query` for one prompt: run the retry loop from
attempt 0 with `max_retries` attempts allowed. -/
def llmQuery (oracle : Nat → Except eps sig) : QueryTrace eps sig :=
  queryAux oracle 0 maxRetries

/-! Embedding of workflow_analyzer.py. -/

/-- An element of `analysis_files`: relative path and decoded content. -/
structure AnalysisFile where
  path : String
  content : String
deriving Repr, DecidableEq

/-- The extension list of `WorkflowAnalyzer._is_code_file` (note: unlike
the repository handler, it has no `.cc` and no `.ts`-separate handling
differences; the list is copied verbatim). -/
def isCodeFile (filename : String) : Bool :=
  let ext := strLower (splitextExt filename)
  strEq ext ".py" || strEq ext ".r" || strEq ext ".rmd" || strEq ext ".sh" ||
    strEq ext ".bash" || strEq ext ".c" || strEq ext ".cpp" || strEq ext ".h" ||
    strEq ext ".hpp" || strEq ext ".java" || strEq ext ".js" || strEq ext ".ts"

/-- Models `WorkflowAnalyzer._get_analysis_files`: walk the tree, skip
unreadable or oversized files, keep code files with their content. -/
def getAnalysisFiles (repo : List RepoFile) : List AnalysisFile :=
  repo.foldl
    (fun acc f =>
      if f.readableAsText = false ∨ f.size > 1000000 then acc
      else if isCodeFile (baseName f.path) then
        acc ++ [{ path := f.path, content := f.content }]
      else acc)
    []

/-- The parsed JSON reply of one entry-point query, with the defaults of
the `.get(...)` calls already applied; a reply that is not valid JSON (or
otherwise makes the handling code raise) is modelled as `none` by the
parse oracle. -/
structure EPReply where
  is_entry_point : Bool
  main_function : String
  accepts_arguments : Bool
  description : String
  expected_inputs : List String
  expected_outputs : List String
deriving Repr, DecidableEq

/-- An accepted entry point as appended by `_analyze_entry_points`. -/
structure EntryPoint where
  path : String
  main_function : String
  accepts_arguments : Bool
  description : String
  expected_inputs : List String
  expected_outputs : List String
deriving Repr, DecidableEq

/-- The entry-point record built from a candidate file and its parsed
reply. -/
def mkEntryPoint (f : AnalysisFile) (rep : EPReply) : EntryPoint :=
  { path := f.path
    main_function := rep.main_function
    accepts_arguments := rep.accepts_arguments
    description := rep.description
    expected_inputs := rep.expected_inputs
    expected_outputs := rep.expected_outputs }

/-- Models the candidate test of `_analyze_entry_points`: the lowercased
path contains "main", "run" or "app". -/
def isPotentialEntryPoint (f : AnalysisFile) : Bool :=
  strContainsSub (strLower f.path) "main" ||
    strContainsSub (strLower f.path) "run" ||
    strContainsSub (strLower f.path) "app"

/-- Models the candidate selection of `_analyze_entry_points`: the files
matching the substring test, or every analysis file when none match. -/
def candidateFiles (files : List AnalysisFile) : List AnalysisFile :=
  let potential := files.filter isPotentialEntryPoint
  if potential.isEmpty then files else potential

/-- Observable outcome of the entry-point loop: accepted entry points in
order, number of model queries issued, number of parse-failure warnings
logged. -/
structure EPResult where
  entry_points : List EntryPoint
  queries : Nat
  warnings : Nat
deriving Repr, DecidableEq

/-- One iteration of the candidate loop of `_analyze_entry_points`: one
query per candidate; on a parsed reply with `is_entry_point` the record is
appended, on an unparseable reply a warning is logged and the loop
continues. -/
def epStep (parseEP : String → Option EPReply) (epReply : AnalysisFile → String)
    (st : EPResult) (f : AnalysisFile) : EPResult :=
  let st' := { st with queries := st.queries + 1 }
  match parseEP (epReply f) with
  | some rep =>
    if rep.is_entry_point then
      { st' with entry_points := st'.entry_points ++ [mkEntryPoint f rep] }
    else st'
  | none => { st' with warnings := st'.warnings + 1 }

/-- Models `WorkflowAnalyzer._analyze_entry_points`: fold the candidate
loop over the candidate files. `epReply` is the model endpoint reply for
the prompt built from a candidate file; `parseEP` is the JSON parse of
that reply (None = parse failure). -/
def analyzeEntryPoints (parseEP : String → Option EPReply)
    (epReply : AnalysisFile → String) (files : List AnalysisFile) : EPResult :=
  (candidateFiles files).foldl (epStep parseEP epReply) ⟨[], 0, 0⟩

/-- A successfully parsed workflow: the parsed JSON payload (opaque here)
and the `entry_point` path the loop adds to it. -/
structure Workflow where
  payload : String
  entry_point : String
deriving Repr, DecidableEq

/-- Observable outcome of the workflow loop. -/
structure WFResult where
  workflows : List Workflow
  queries : Nat
  warnings : Nat
deriving Repr, DecidableEq

/-- One iteration of `_analyze_workflows`: look the entry-point file up in
`analysis_files` (skipping silently when absent), issue one query, keep
the parsed workflow or log a warning. -/
def wfStep (files : List AnalysisFile) (parseWF : String → Option String)
    (wfReply : AnalysisFile → EntryPoint → String) (st : WFResult)
    (ep : EntryPoint) : WFResult :=
  match files.find? (fun f => strEq f.path ep.path) with
  | none => st
  | some entryFile =>
    let st' := { st with queries := st.queries + 1 }
    match parseWF (wfReply entryFile ep) with
    | some payload =>
      { st' with workflows := st'.workflows ++ [⟨payload, ep.path⟩] }
    | none => { st' with warnings := st'.warnings + 1 }

/-- Models `WorkflowAnalyzer._analyze_workflows`. -/
def analyzeWorkflows (files : List AnalysisFile)
    (parseWF : String → Option String)
    (wfReply : AnalysisFile → EntryPoint → String)
    (entryPoints : List EntryPoint) : WFResult :=
  entryPoints.foldl (wfStep files parseWF wfReply) ⟨[], 0, 0⟩

/-- Models `WorkflowAnalyzer._analyze_scaling_limitations` together with
its query count: an empty workflow list short-circuits to the empty dict
(modelled `none`) with no query; otherwise one query is issued and a parse
failure defaults to the empty dict. -/
def analyzeScalingLimitations (parseScaling : String → Option String)
    (scalingReply : List Workflow → String) (workflows : List Workflow) :
    Option String × Nat :=
  if workflows.isEmpty then (none, 0)
  else
    match parseScaling (scalingReply workflows) with
    | some s => (some s, 1)
    | none => (none, 1)

/-- Models `WorkflowAnalyzer._analyze_bottlenecks` together with its query
count: an empty workflow list short-circuits to the empty list (modelled
`none`) with no query; otherwise one query is issued and a parse failure
defaults to the empty list. -/
def analyzeBottlenecks (parseBott : String → Option String)
    (bottReply : List Workflow → String) (workflows : List Workflow) :
    Option String × Nat :=
  if workflows.isEmpty then (none, 0)
  else
    match parseBott (bottReply workflows) with
    | some s => (some s, 1)
    | none => (none, 1)

/-- The aggregate returned by `WorkflowAnalyzer.analyze_workflow`. -/
structure WorkflowAnalysis where
  entry_points : List EntryPoint
  workflows : List Workflow
  scaling_limitations : Option String
  bottlenecks : Option String
deriving Repr, DecidableEq

/-- Models `WorkflowAnalyzer.analyze_workflow` on the analysis files,
returning the aggregate and the total number of model queries issued. -/
def analyzeWorkflow (parseEP : String → Option EPReply)
    (epReply : AnalysisFile → String)
    (parseWF : String → Option String)
    (wfReply : AnalysisFile → EntryPoint → String)
    (parseScaling : String → Option String)
    (scalingReply : List Workflow → String)
    (parseBott : String → Option String)
    (bottReply : List Workflow → String)
    (files : List AnalysisFile) : WorkflowAnalysis × Nat :=
  let ep := analyzeEntryPoints parseEP epReply files
  let wf := analyzeWorkflows files parseWF wfReply ep.entry_points
  let sc := analyzeScalingLimitations parseScaling scalingReply wf.workflows
  let bo := analyzeBottlenecks parseBott bottReply wf.workflows
  ({ entry_points := ep.entry_points
     workflows := wf.workflows
     scaling_limitations := sc.1
     bottlenecks := bo.1 },
   ep.queries + wf.queries + sc.2 + bo.2)

/-! Claim theorems about the model client and the workflow analyzer. -/

/-- C3: per prompt, `LLMAgent.query` makes at most 3 attempts; the sleeps
between consecutive attempts are each exactly `retry_delay` (one fewer
than the attempts made); when all three attempts fail the final error is
re-raised after exactly 3 calls and 2 sleeps; when an attempt succeeds its
text is returned and no further call is made. -/
theorem model_client_retry_policy {eps sig : Type}
    (oracle : Nat → Except eps sig) :
    (llmQuery oracle).calls ≤ 3 ∧
    (llmQuery oracle).delays =
      List.replicate ((llmQuery oracle).calls - 1) retryDelay ∧
    (∀ e0 e1 e2, oracle 0 = Except.error e0 → oracle 1 = Except.error e1 →
      oracle 2 = Except.error e2 →
      llmQuery oracle = ⟨Except.error e2, 3, [retryDelay, retryDelay]⟩) ∧
    (∀ k s, k < 3 → oracle k = Except.ok s →
      (∀ j, j < k → ∃ e, oracle j = Except.error e) →
      (llmQuery oracle).result = Except.ok s ∧
      (llmQuery oracle).calls = k + 1) := by
  rcases h0 : oracle 0 with e0 | s0
  · rcases h1 : oracle 1 with e1 | s1
    · rcases h2 : oracle 2 with e2 | s2
      · have htr : llmQuery oracle =
            ⟨Except.error e2, 3, [retryDelay, retryDelay]⟩ := by
          simp [llmQuery, queryAux, maxRetries, h0, h1, h2]
        refine ⟨by rw [htr] <;> norm_num, by rw [htr]; rfl, ?_, ?_⟩
        · intro f0 f1 f2 g0 g1 g2
          have he : e2 = f2 := Except.error.inj g2
          rw [htr, he]
        · intro k s hk hks _
          interval_cases k
          · rw [h0] at hks; simp at hks
          · rw [h1] at hks; simp at hks
          · rw [h2] at hks; simp at hks
      · have htr : llmQuery oracle = ⟨Except.ok s2, 3, [retryDelay, retryDelay]⟩ := by
          simp [llmQuery, queryAux, maxRetries, h0, h1, h2]
        refine ⟨by rw [htr] <;> norm_num, by rw [htr]; rfl, ?_, ?_⟩
        · intro f0 f1 f2 g0 g1 g2
          exact Except.noConfusion g2
        · intro k s hk hks _
          interval_cases k
          · rw [h0] at hks; simp at hks
          · rw [h1] at hks; simp at hks
          · rw [h2] at hks
            have : s2 = s := Except.ok.inj hks
            subst this
            rw [htr]
            exact ⟨rfl, rfl⟩
    · have htr : llmQuery oracle = ⟨Except.ok s1, 2, [retryDelay]⟩ := by
        simp [llmQuery, queryAux, maxRetries, h0, h1]
      refine ⟨by rw [htr] <;> norm_num, by rw [htr]; rfl, ?_, ?_⟩
      · intro f0 f1 f2 g0 g1 g2
        exact Except.noConfusion g1
      · intro k s hk hks hprev
        interval_cases k
        · rw [h0] at hks; simp at hks
        · rw [h1] at hks
          have : s1 = s := Except.ok.inj hks
          subst this
          rw [htr]
          exact ⟨rfl, rfl⟩
        · rcases hprev 1 (by omega) with ⟨e, he⟩
          rw [h1] at he; simp at he
  · have htr : llmQuery oracle = ⟨Except.ok s0, 1, []⟩ := by
      simp [llmQuery, queryAux, maxRetries, h0]
    refine ⟨by rw [htr] <;> norm_num, by rw [htr]; rfl, ?_, ?_⟩
    · intro f0 f1 f2 g0 g1 g2
      exact Except.noConfusion g0
    · intro k s hk hks hprev
      interval_cases k
      · rw [h0] at hks
        have : s0 = s := Except.ok.inj hks
        subst this
        rw [htr]
        exact ⟨rfl, rfl⟩
      · rcases hprev 0 (by omega) with ⟨e, he⟩
        rw [h0] at he; simp at he
      · rcases hprev 0 (by omega) with ⟨e, he⟩
        rw [h0] at he; simp at he

/-- Witness for C3: a first attempt that fails and a second that succeeds
returns the second text after exactly 2 calls. -/
theorem model_client_retry_policy_witness :
    (llmQuery (fun k =>
        if k = 0 then Except.error "boom" else Except.ok "text")).result
      = Except.ok "text" ∧
    (llmQuery (fun k =>
        if k = 0 then Except.error "boom" else Except.ok "text")).calls = 2 :=
  (model_client_retry_policy
      (fun k => if k = 0 then Except.error "boom" else Except.ok "text")).2.2.2
    1 "text" (by omega) (by simp)
    (fun j hj => ⟨"boom", by
      have hj0 : j = 0 := by omega
      simp [hj0]⟩)

/-- The contribution of one candidate file to the accepted entry points:
its parsed record when the reply parses and claims an entry point. -/
def epOutcome (parseEP : String → Option EPReply)
    (epReply : AnalysisFile → String) (f : AnalysisFile) : Option EntryPoint :=
  match parseEP (epReply f) with
  | some rep => if rep.is_entry_point then some (mkEntryPoint f rep) else none
  | none => none

/-- The candidate loop accumulates: accepted entry points are the
filter-mapped outcomes, queries count every candidate, warnings count the
unparseable replies. -/
theorem ep_fold_eq (parseEP : String → Option EPReply)
    (epReply : AnalysisFile → String) :
    ∀ (cands : List AnalysisFile) (st : EPResult),
      cands.foldl (epStep parseEP epReply) st =
        { entry_points :=
            st.entry_points ++ cands.filterMap (epOutcome parseEP epReply)
          queries := st.queries + cands.length
          warnings := st.warnings +
            (cands.filter (fun f => (parseEP (epReply f)).isNone)).length }
  | [], st => by simp
  | f :: cands, st => by
    rw [List.foldl_cons, ep_fold_eq parseEP epReply cands]
    rcases hp : parseEP (epReply f) with _ | rep
    · have hstep : epStep parseEP epReply st f =
          { st with queries := st.queries + 1, warnings := st.warnings + 1 } := by
        simp [epStep, hp]
      rw [hstep]
      simp [epOutcome, hp, List.filterMap_cons, List.filter_cons,
        EPResult.mk.injEq]
      omega
    · by_cases hie : rep.is_entry_point
      · have hstep : epStep parseEP epReply st f =
            { st with queries := st.queries + 1,
                      entry_points := st.entry_points ++ [mkEntryPoint f rep] } := by
          simp [epStep, hp, hie]
        rw [hstep]
        simp [epOutcome, hp, hie, List.filterMap_cons, List.filter_cons,
          EPResult.mk.injEq]
        omega
      · have hstep : epStep parseEP epReply st f =
            { st with queries := st.queries + 1 } := by
          simp [epStep, hp, hie]
        rw [hstep]
        simp [epOutcome, hp, hie, List.filterMap_cons, List.filter_cons,
          EPResult.mk.injEq]
        omega

/-- Characterization of `_analyze_entry_points` on the candidate list. -/
theorem analyzeEntryPoints_eq (parseEP : String → Option EPReply)
    (epReply : AnalysisFile → String) (files : List AnalysisFile) :
    analyzeEntryPoints parseEP epReply files =
      { entry_points :=
          (candidateFiles files).filterMap (epOutcome parseEP epReply)
        queries := (candidateFiles files).length
        warnings :=
          ((candidateFiles files).filter
            (fun f => (parseEP (epReply f)).isNone)).length } := by
  have h := ep_fold_eq parseEP epReply (candidateFiles files) ⟨[], 0, 0⟩
  simpa [analyzeEntryPoints] using h

/-- Candidates are drawn from the analysis files. -/
theorem candidateFiles_subset (files : List AnalysisFile) :
    ∀ f ∈ candidateFiles files, f ∈ files := by
  intro f hf
  unfold candidateFiles at hf
  by_cases hpe : (files.filter isPotentialEntryPoint).isEmpty
  · simpa [hpe] using hf
  · rw [if_neg hpe] at hf
    exact List.mem_of_mem_filter hf

/-- A filter-map is unchanged by first dropping elements on which it
yields none. -/
theorem filterMap_filter_none (h : α → Option β) (q : α → Bool)
    (hq : ∀ a, q a = false → h a = none) :
    ∀ l : List α, l.filterMap h = (l.filter q).filterMap h
  | [] => by simp
  | a :: l => by
    rcases hqa : q a with _ | _
    · rw [List.filterMap_cons, hq a hqa, List.filter_cons]
      simp only [hqa, Bool.false_eq_true, if_false]
      exact filterMap_filter_none h q hq l
    · rw [List.filterMap_cons, List.filter_cons]
      simp only [hqa, if_true]
      rw [List.filterMap_cons]
      cases h a <;> rw [filterMap_filter_none h q hq l]

/-- An accepted entry point keeps the path of the candidate file it came
from. -/
theorem epOutcome_path (parseEP : String → Option EPReply)
    (epReply : AnalysisFile → String) (f : AnalysisFile) (ep : EntryPoint)
    (h : epOutcome parseEP epReply f = some ep) : ep.path = f.path := by
  unfold epOutcome at h
  rcases hp : parseEP (epReply f) with _ | rep
  · rw [hp] at h; exact Option.noConfusion h
  · rw [hp] at h
    have h2 : (if rep.is_entry_point then some (mkEntryPoint f rep) else none)
        = some ep := h
    by_cases hie : rep.is_entry_point
    · rw [if_pos hie] at h2
      have h3 : mkEntryPoint f rep = ep := Option.some.inj h2
      rw [← h3]
      rfl
    · rw [if_neg hie] at h2; exact Option.noConfusion h2

/-- C4: a candidate file whose model reply does not parse contributes no
entry point (given the distinct paths of a real file tree), bumps the
warning count to at least one, and the loop result is exactly the result
over the candidates whose replies do parse — the run continues without
raising. -/
theorem unparseable_entry_point_reply_skipped
    (parseEP : String → Option EPReply) (epReply : AnalysisFile → String)
    (files : List AnalysisFile) (f : AnalysisFile)
    (hnd : (files.map AnalysisFile.path).Nodup)
    (hf : f ∈ candidateFiles files)
    (hbad : parseEP (epReply f) = none) :
    (∀ ep ∈ (analyzeEntryPoints parseEP epReply files).entry_points,
        ep.path ≠ f.path) ∧
    1 ≤ (analyzeEntryPoints parseEP epReply files).warnings ∧
    (analyzeEntryPoints parseEP epReply files).entry_points =
      ((candidateFiles files).filter
          (fun g => !(parseEP (epReply g)).isNone)).filterMap
        (epOutcome parseEP epReply) := by
  rw [analyzeEntryPoints_eq]
  refine ⟨?_, ?_, ?_⟩
  · intro ep hep heq
    rcases List.mem_filterMap.mp hep with ⟨g, hg, hgo⟩
    have hpath : ep.path = g.path := epOutcome_path parseEP epReply g ep hgo
    have hgmem : g ∈ files := candidateFiles_subset files g hg
    have hfmem : f ∈ files := candidateFiles_subset files f hf
    have hgf : g = f :=
      List.inj_on_of_nodup_map hnd hgmem hfmem (by rw [← hpath, heq])
    rw [hgf] at hgo
    unfold epOutcome at hgo
    rw [hbad] at hgo
    exact Option.noConfusion hgo
  · have hmem : f ∈ (candidateFiles files).filter
        (fun g => (parseEP (epReply g)).isNone) :=
      List.mem_filter.mpr ⟨hf, by simp [hbad]⟩
    exact List.length_pos.mpr (List.ne_nil_of_mem hmem)
  · exact filterMap_filter_none (epOutcome parseEP epReply)
      (fun g => !(parseEP (epReply g)).isNone)
      (fun g hg => by
        have hisNone : (parseEP (epReply g)).isNone = true := by simpa using hg
        have hnone : parseEP (epReply g) = none :=
          Option.isNone_iff_eq_none.mp hisNone
        unfold epOutcome
        rw [hnone])
      (candidateFiles files)

/-- Witness for C4: one candidate whose reply never parses yields no entry
points and one warning. -/
theorem unparseable_entry_point_reply_skipped_witness :
    (analyzeEntryPoints (fun _ => none) (fun _ => "not json")
      [{ path := "main.py", content := "c" }]).entry_points = [] ∧
    1 ≤ (analyzeEntryPoints (fun _ => none) (fun _ => "not json")
      [{ path := "main.py", content := "c" }]).warnings := by
  have h := unparseable_entry_point_reply_skipped (fun _ => none)
    (fun _ => "not json") [{ path := "main.py", content := "c" }]
    { path := "main.py", content := "c" } (by decide) (by decide) rfl
  exact ⟨by rw [h.2.2]; rfl, h.2.1⟩

/-- The workflow loop issues one query per entry point whose file is found
among the analysis files. -/
theorem wf_fold_counts (files : List AnalysisFile)
    (parseWF : String → Option String)
    (wfReply : AnalysisFile → EntryPoint → String) :
    ∀ (eps : List EntryPoint) (st : WFResult),
      (eps.foldl (wfStep files parseWF wfReply) st).queries =
        st.queries + (eps.filter
          (fun ep => (files.find? (fun f => strEq f.path ep.path)).isSome)).length
  | [], st => by simp
  | ep :: eps, st => by
    rw [List.foldl_cons]
    rcases hfind : files.find? (fun f => strEq f.path ep.path) with _ | ef
    · have hstep : wfStep files parseWF wfReply st ep = st := by
        simp [wfStep, hfind]
      rw [hstep, wf_fold_counts files parseWF wfReply eps st]
      simp [List.filter_cons, hfind]
    · rcases hp : parseWF (wfReply ef ep) with _ | payload
      · have hstep : wfStep files parseWF wfReply st ep =
            { st with queries := st.queries + 1, warnings := st.warnings + 1 } := by
          simp [wfStep, hfind, hp]
        rw [hstep, wf_fold_counts files parseWF wfReply eps _]
        simp [List.filter_cons, hfind]
        omega
      · have hstep : wfStep files parseWF wfReply st ep =
            { st with queries := st.queries + 1,
                      workflows := st.workflows ++ [⟨payload, ep.path⟩] } := by
          simp [wfStep, hfind, hp]
        rw [hstep, wf_fold_counts files parseWF wfReply eps _]
        simp [List.filter_cons, hfind]
        omega

/-- Every accepted entry point has a matching analysis file, so its
workflow query is always issued. -/
theorem accepted_entry_points_have_files (parseEP : String → Option EPReply)
    (epReply : AnalysisFile → String) (files : List AnalysisFile) :
    ∀ ep ∈ (analyzeEntryPoints parseEP epReply files).entry_points,
      (files.find? (fun f => strEq f.path ep.path)).isSome := by
  rw [analyzeEntryPoints_eq]
  intro ep hep
  rcases List.mem_filterMap.mp hep with ⟨g, hg, hgo⟩
  have hpath : ep.path = g.path := epOutcome_path parseEP epReply g ep hgo
  have hgmem : g ∈ files := candidateFiles_subset files g hg
  rw [List.find?_isSome]
  exact ⟨g, hgmem, by rw [hpath]; simp [strEq]⟩

/-- The scaling query count: none for an empty workflow list, one
otherwise (whether or not the reply parses). -/
theorem scaling_calls_eq (parseScaling : String → Option String)
    (scalingReply : List Workflow → String) (workflows : List Workflow) :
    (analyzeScalingLimitations parseScaling scalingReply workflows).2 =
      if workflows.isEmpty then 0 else 1 := by
  unfold analyzeScalingLimitations
  by_cases h : workflows.isEmpty
  · simp [h]
  · rcases hp : parseScaling (scalingReply workflows) with _ | sc <;> simp [h, hp]

/-- The bottleneck query count: none for an empty workflow list, one
otherwise (whether or not the reply parses). -/
theorem bottleneck_calls_eq (parseBott : String → Option String)
    (bottReply : List Workflow → String) (workflows : List Workflow) :
    (analyzeBottlenecks parseBott bottReply workflows).2 =
      if workflows.isEmpty then 0 else 1 := by
  unfold analyzeBottlenecks
  by_cases h : workflows.isEmpty
  · simp [h]
  · rcases hp : parseBott (bottReply workflows) with _ | bo <;> simp [h, hp]

/-- C5 (counterexample): with one candidate file whose reply parses but
declines (`is_entry_point` false), the run makes exactly 1 model call and
accepts 0 entry points, while "2 per accepted entry point plus 2 fixed
aggregate calls" predicts 2. -/
theorem total_model_calls_counterexample :
    (analyzeWorkflow
        (fun _ => some { is_entry_point := false, main_function := "",
                         accepts_arguments := false, description := "",
                         expected_inputs := [], expected_outputs := [] })
        (fun _ => "r") (fun _ => none) (fun _ _ => "r") (fun _ => none)
        (fun _ => "r") (fun _ => none) (fun _ => "r")
        [{ path := "main.py", content := "c" }]).2 = 1 ∧
    (analyzeWorkflow
        (fun _ => some { is_entry_point := false, main_function := "",
                         accepts_arguments := false, description := "",
                         expected_inputs := [], expected_outputs := [] })
        (fun _ => "r") (fun _ => none) (fun _ _ => "r") (fun _ => none)
        (fun _ => "r") (fun _ => none) (fun _ => "r")
        [{ path := "main.py", content := "c" }]).1.entry_points.length = 0 ∧
    (1 : Nat) ≠ 2 * 0 + 2 :=
  ⟨rfl, rfl, by decide⟩

/-- C5 (amended): the total number of model calls is 1 per candidate file,
plus 1 per accepted entry point, plus 2 aggregate calls only when at least
one workflow parsed (0 otherwise). -/
theorem total_model_calls_formula (parseEP : String → Option EPReply)
    (epReply : AnalysisFile → String) (parseWF : String → Option String)
    (wfReply : AnalysisFile → EntryPoint → String)
    (parseScaling : String → Option String)
    (scalingReply : List Workflow → String)
    (parseBott : String → Option String)
    (bottReply : List Workflow → String) (files : List AnalysisFile) :
    (analyzeWorkflow parseEP epReply parseWF wfReply parseScaling scalingReply
        parseBott bottReply files).2 =
      (candidateFiles files).length +
      (analyzeEntryPoints parseEP epReply files).entry_points.length +
      (if (analyzeWorkflows files parseWF wfReply
            (analyzeEntryPoints parseEP epReply files).entry_points).workflows.isEmpty
        then 0 else 2) := by
  have h1 : (analyzeEntryPoints parseEP epReply files).queries =
      (candidateFiles files).length := by rw [analyzeEntryPoints_eq]
  have h2 : (analyzeWorkflows files parseWF wfReply
      (analyzeEntryPoints parseEP epReply files).entry_points).queries =
      (analyzeEntryPoints parseEP epReply files).entry_points.length := by
    unfold analyzeWorkflows
    rw [wf_fold_counts files parseWF wfReply]
    rw [List.filter_eq_self.mpr]
    · simp
    · intro ep hep
      simpa using accepted_entry_points_have_files parseEP epReply files ep hep
  have h3 := scaling_calls_eq parseScaling scalingReply
    (analyzeWorkflows files parseWF wfReply
      (analyzeEntryPoints parseEP epReply files).entry_points).workflows
  have h4 := bottleneck_calls_eq parseBott bottReply
    (analyzeWorkflows files parseWF wfReply
      (analyzeEntryPoints parseEP epReply files).entry_points).workflows
  show (analyzeEntryPoints parseEP epReply files).queries +
      (analyzeWorkflows files parseWF wfReply
        (analyzeEntryPoints parseEP epReply files).entry_points).queries +
      (analyzeScalingLimitations parseScaling scalingReply
        (analyzeWorkflows files parseWF wfReply
          (analyzeEntryPoints parseEP epReply files).entry_points).workflows).2 +
      (analyzeBottlenecks parseBott bottReply
        (analyzeWorkflows files parseWF wfReply
          (analyzeEntryPoints parseEP epReply files).entry_points).workflows).2 = _
  rw [h1, h2, h3, h4]
  by_cases hW : (analyzeWorkflows files parseWF wfReply
      (analyzeEntryPoints parseEP epReply files).entry_points).workflows.isEmpty
  · simp [hW]
  · simp [hW]

/-- C10: with an empty parsed-workflow list, the scaling analysis returns
the empty default (the `{}` dict, modelled `none`) and the bottleneck
analysis the empty default (the `[]` list, modelled `none`), and neither
issues any model query. -/
theorem empty_workflows_no_aggregate_queries
    (parseScaling : String → Option String)
    (scalingReply : List Workflow → String)
    (parseBott : String → Option String)
    (bottReply : List Workflow → String) :
    analyzeScalingLimitations parseScaling scalingReply [] = (none, 0) ∧
    analyzeBottlenecks parseBott bottReply [] = (none, 0) :=
  ⟨rfl, rfl⟩

/-! Embedding of documentation_publisher.py. -/

/-- Models `os.path.join(a, b)` for the relative/joined paths occurring
here: an absolute second component wins, otherwise a separator is inserted
unless one is already present or the first component is empty. -/
def pyJoin (a b : String) : String :=
  if strStartsWith b "/" then b
  else if strEq a "" || strEndsWith a "/" then a ++ b
  else a ++ "/" ++ b

/-- Three-component `os.path.join`. -/
def pyJoin3 (a b c : String) : String :=
  pyJoin (pyJoin a b) c

/-- Joins string parts with a separator, modelling Python
`sep.join(parts)`. -/
def joinWith (sep : String) : List String → String
  | [] => ""
  | [x] => x
  | x :: xs => x ++ sep ++ joinWith sep xs

/-- Models `os.path.dirname` on the relative paths used as code-doc keys:
everything before the last forward slash, empty when there is none. -/
def dirName (path : String) : String :=
  joinWith "/" (splitOnStr path "/").dropLast

/-- Models Python `s.replace(old, new)` (all non-overlapping occurrences):
the new string joined over the split parts. -/
def strReplace (s old new : String) : String :=
  if strEq old "" then s
  else joinWith new (splitOnStr s old)

/-- Models a single-character `str.replace`: character-wise
substitution. -/
def replaceChar (a b : Char) (s : String) : String :=
  String.mk (s.data.map (fun c => if c = a then b else c))

/-- Models `DocumentationPublisher._safe_filename`: the chained
replacements of space, forward slash, backslash and colon by underscore,
applied in source order. -/
def safeFilename (s : String) : String :=
  replaceChar ':' '_'
    (replaceChar '\\' '_' (replaceChar '/' '_' (replaceChar ' ' '_' s)))

/-- The `DocumentationBundle` handed to the publisher; the three map
sections are insertion-ordered association lists, as Python dicts are. -/
structure DocumentationBundle where
  main_readme : String
  installation_guide : String
  scaling_guide : String
  troubleshooting_guide : String
  workflow_docs : List (String × String)
  output_docs : List (String × String)
  code_docs : List (String × String)
deriving Repr, DecidableEq

/-- A filesystem effect of the publisher, in program order. -/
inductive FsOp where
  | makeDirs (path : String)
  | writeFile (path : String) (content : String)
  | copyFile (src dst : String)
deriving Repr, DecidableEq

/-- Models `self.docs_dir`. -/
def docsDir (outputDir : String) : String := pyJoin outputDir "docs"

/-- Models `self.code_docs_dir`. -/
def codeDocsDir (outputDir : String) : String := pyJoin (docsDir outputDir) "code"

/-- Models `self.workflow_docs_dir`. -/
def workflowDocsDir (outputDir : String) : String :=
  pyJoin (docsDir outputDir) "workflows"

/-- Models `self.output_docs_dir`. -/
def outputDocsDir (outputDir : String) : String :=
  pyJoin (docsDir outputDir) "outputs"

/-- Modelled from the spec: the body of `_create_list_links` in
documentation_publisher.py is syntactically mangled (line 152 holds an
unterminated expression spliced with a duplicate of the following line,
a syntax error), so the evidently intended behavior is taken from the
description of the index pages in the spec: one markdown link per map key, in
insertion order, pointing at the sanitized file name under the given
directory. -/
def createListLinks (items : List (String × String)) (pre : String) : String :=
  joinWith "\n"
    (items.map (fun it =>
      "- [" ++ it.1 ++ "](" ++ pre ++ "/" ++ safeFilename it.1 ++ ".md)"))

/-- The insertion-ordered grouping dict of `_create_code_list`. -/
def groupInsert (dirs : List (String × List String)) (key p : String) :
    List (String × List String) :=
  match dirs with
  | [] => [(key, [p])]
  | (k, ps) :: rest =>
    if strEq k key then (k, ps ++ [p]) :: rest
    else (k, ps) :: groupInsert rest key p

/-- Models the directory grouping of `_create_code_list`:
`os.path.dirname(path) or "root"` as key, paths in insertion order. -/
def codeDirectories (codeDocs : List (String × String)) :
    List (String × List String) :=
  codeDocs.foldl
    (fun dirs pc =>
      let dn := dirName pc.1
      groupInsert dirs (if strEq dn "" then "root" else dn) pc.1)
    []

/-- Models `DocumentationPublisher._create_code_list`: a section header
per directory followed by one link per file, the link path rewriting the
file name to its sanitized `.md` name via substring replacement. -/
def createCodeList (codeDocs : List (String × String)) : String :=
  let dirs := codeDirectories codeDocs
  joinWith "\n"
    (dirs.foldl
      (fun links d =>
        let header := if strEq d.1 "root" then "### Root" else "### " ++ d.1
        let fileLinks := d.2.map (fun path =>
          let fileName := baseName path
          let rel := pyJoin "code"
            (strReplace path fileName (safeFilename fileName ++ ".md"))
          "- [" ++ fileName ++ "](" ++ rel ++ ")")
        links ++ [header] ++ fileLinks ++ [""])
      [])

/-- The main index page content of `_create_index_files`. -/
def mainIndexContent (doc : DocumentationBundle) : String :=
  "# Documentation Index\n\n## Installation and Setup\n" ++
  "- [Installation Guide](installation.md)\n\n## Workflows\n" ++
  createListLinks doc.workflow_docs "workflows" ++
  "\n\n## Output Files\n" ++
  createListLinks doc.output_docs "outputs" ++
  "\n\n## Advanced Topics\n- [Scaling Guide](scaling.md)\n" ++
  "- [Troubleshooting Guide](troubleshooting.md)\n\n## Code Documentation\n" ++
  createCodeList doc.code_docs ++ "\n"

/-- The workflow index page content. -/
def workflowIndexContent (doc : DocumentationBundle) : String :=
  "# Workflow Documentation\n\n" ++ createListLinks doc.workflow_docs "" ++ "\n"

/-- The output index page content. -/
def outputIndexContent (doc : DocumentationBundle) : String :=
  "# Output Files Documentation\n\n" ++
  createListLinks doc.output_docs "" ++ "\n"

/-- The three index writes of `_create_index_files`. -/
def createIndexOps (outputDir : String) (doc : DocumentationBundle) :
    List FsOp :=
  [FsOp.writeFile (pyJoin (docsDir outputDir) "index.md") (mainIndexContent doc),
   FsOp.writeFile (pyJoin (workflowDocsDir outputDir) "index.md")
     (workflowIndexContent doc),
   FsOp.writeFile (pyJoin (outputDocsDir outputDir) "index.md")
     (outputIndexContent doc)]

/-- The directory creations and fixed-name writes at the top of
`publish_documentation`. -/
def fixedWriteOps (outputDir : String) (doc : DocumentationBundle) :
    List FsOp :=
  [FsOp.makeDirs outputDir,
   FsOp.makeDirs (docsDir outputDir),
   FsOp.makeDirs (codeDocsDir outputDir),
   FsOp.makeDirs (workflowDocsDir outputDir),
   FsOp.makeDirs (outputDocsDir outputDir),
   FsOp.writeFile (pyJoin outputDir "README.md") doc.main_readme,
   FsOp.writeFile (pyJoin (docsDir outputDir) "installation.md")
     doc.installation_guide,
   FsOp.writeFile (pyJoin (docsDir outputDir) "scaling.md") doc.scaling_guide,
   FsOp.writeFile (pyJoin (docsDir outputDir) "troubleshooting.md")
     doc.troubleshooting_guide]

/-- The per-workflow writes. -/
def workflowDocOps (outputDir : String) (doc : DocumentationBundle) :
    List FsOp :=
  doc.workflow_docs.map (fun wd =>
    FsOp.writeFile (pyJoin (workflowDocsDir outputDir)
      (safeFilename wd.1 ++ ".md")) wd.2)

/-- The per-output-type writes. -/
def outputDocOps (outputDir : String) (doc : DocumentationBundle) :
    List FsOp :=
  doc.output_docs.map (fun od =>
    FsOp.writeFile (pyJoin (outputDocsDir outputDir)
      (safeFilename od.1 ++ ".md")) od.2)

/-- The effects of one code-doc entry: create the sub-directory when the
key has one, then write the sanitized file beneath it. -/
def codeDocOps (outputDir : String) (cd : String × String) : List FsOp :=
  (if strEq (dirName cd.1) "" then []
   else [FsOp.makeDirs (pyJoin (codeDocsDir outputDir) (dirName cd.1))]) ++
  [FsOp.writeFile (pyJoin3 (codeDocsDir outputDir) (dirName cd.1)
    (safeFilename (baseName cd.1) ++ ".md")) cd.2]

/-- The publishing effects before the mirroring step, in program order. -/
def publishBaseOps (outputDir : String) (doc : DocumentationBundle) :
    List FsOp :=
  fixedWriteOps outputDir doc ++
  workflowDocOps outputDir doc ++
  outputDocOps outputDir doc ++
  doc.code_docs.bind (codeDocOps outputDir) ++
  createIndexOps outputDir doc

/-- The leading characters of a string after a known prefix length. -/
def dropChars (n : Nat) (s : String) : String :=
  String.mk (s.data.drop n)

/-- The mirroring step of `publish_documentation` when the repository path
exists: create the repo docs dir, copy the readme over the repository
readme, then copy every file written under the docs dir (the walk order of
the on-disk copy is modelled by the write order). -/
def mirrorOps (outputDir repoPath : String) (base : List FsOp) : List FsOp :=
  let repoDocs := pyJoin repoPath "docs"
  let docsPre := docsDir outputDir ++ "/"
  let docsFiles := base.filterMap (fun op =>
    match op with
    | FsOp.writeFile p _ => if strStartsWith p docsPre then some p else none
    | _ => none)
  [FsOp.makeDirs repoDocs,
   FsOp.copyFile (pyJoin outputDir "README.md") (pyJoin repoPath "README.md")] ++
  docsFiles.bind (fun p =>
    let dst := pyJoin repoDocs (dropChars docsPre.data.length p)
    [FsOp.makeDirs (dirName dst), FsOp.copyFile p dst])

/-- Models `DocumentationPublisher.publish_documentation` as its sequence
of filesystem effects; `repoPathExists` is `os.path.exists(self.repo_path)`. -/
def publishDocumentation (outputDir repoPath : String)
    (repoPathExists : Bool) (doc : DocumentationBundle) : List FsOp :=
  let base := publishBaseOps outputDir doc
  if repoPathExists then base ++ mirrorOps outputDir repoPath base else base

/-! Embedding of main.py. -/

/-- The pipeline stages of `main()`, in program order. -/
inductive MainStep where
  | reportMissingKey
  | cloneRepository
  | analyzeStructure
  | workflowAnalysis
  | outputAnalysis
  | generateDocumentation
  | publishDocs
deriving Repr, DecidableEq

/-- Python truthiness of the optional credential: absent and empty strings
are falsy. -/
def truthyKey : Option String → Bool
  | none => false
  | some s => !(strEq s "")

/-- Models `args.api_key or os.getenv("OPENAI_API_KEY")`: the command-line
value when truthy, else the environment value. -/
def effectiveApiKey (argsKey envKey : Option String) : Option String :=
  if truthyKey argsKey then argsKey else envKey

/-- Models `main()` as its stage trace: with no usable credential the
missing key is reported and the function returns before any work;
otherwise the pipeline stages run in order (clone, structure analysis,
workflow analysis with its model calls, output analysis, documentation
generation, publishing with its file writes). -/
def mainSteps (argsKey envKey : Option String) : List MainStep :=
  if truthyKey (effectiveApiKey argsKey envKey) then
    [MainStep.cloneRepository, MainStep.analyzeStructure,
     MainStep.workflowAnalysis, MainStep.outputAnalysis,
     MainStep.generateDocumentation, MainStep.publishDocs]
  else [MainStep.reportMissingKey]

/-! Claim theorems about the publisher and main. -/

/-- The composite character substitution performed by `_safe_filename`. -/
def sanitizeOne (c : Char) : Char :=
  let c1 := if c = ' ' then '_' else c
  let c2 := if c1 = '/' then '_' else c1
  let c3 := if c2 = '\\' then '_' else c2
  if c3 = ':' then '_' else c3

/-- The chained replacements act character-wise as `sanitizeOne`. -/
theorem safeFilename_data (s : String) :
    (safeFilename s).data = s.data.map sanitizeOne := by
  simp only [safeFilename, replaceChar, List.map_map]
  rfl

/-- One sanitization pass is idempotent character-wise. -/
theorem sanitizeOne_idem (c : Char) :
    sanitizeOne (sanitizeOne c) = sanitizeOne c := by
  by_cases h1 : c = ' '
  · subst h1; decide
  by_cases h2 : c = '/'
  · subst h2; decide
  by_cases h3 : c = '\\'
  · subst h3; decide
  by_cases h4 : c = ':'
  · subst h4; decide
  simp [sanitizeOne, h1, h2, h3, h4]

/-- Sanitization acts character-wise, so one pass fixes the whole map. -/
theorem map_sanitizeOne_idem :
    ∀ l : List Char, (l.map sanitizeOne).map sanitizeOne = l.map sanitizeOne
  | [] => rfl
  | c :: l => by
    show sanitizeOne (sanitizeOne c) :: (l.map sanitizeOne).map sanitizeOne
        = sanitizeOne c :: l.map sanitizeOne
    rw [map_sanitizeOne_idem l, sanitizeOne_idem c]

/-- C6: `_safe_filename` is idempotent, replaces exactly space, slash,
backslash and colon by underscore without collapsing runs, and therefore
maps "Data Import" and "Data Import " (trailing space) to the distinct
names of scenario C. -/
theorem safe_filename_idempotent_not_collapsing :
    (∀ s : String, safeFilename (safeFilename s) = safeFilename s) ∧
    safeFilename "Data Import" = "Data_Import" ∧
    safeFilename "Data Import " = "Data_Import_" ∧
    ("Data_Import" : String) ≠ "Data_Import_" := by
  refine ⟨?_, by decide, by decide, by decide⟩
  intro s
  apply String.ext
  rw [safeFilename_data, safeFilename_data]
  exact map_sanitizeOne_idem s.data

/-- C7 (on the intended publisher, see `createListLinks`): when the
repository path does not exist, publishing performs exactly the base
output-tree effects — every fixed-name document, every per-map document
and all three index pages are written — and no copy into the repository
(neither the docs mirror nor the README overwrite) occurs. -/
theorem publish_skips_mirror_without_repo (outputDir repoPath : String)
    (doc : DocumentationBundle) :
    publishDocumentation outputDir repoPath false doc =
      publishBaseOps outputDir doc ∧
    (∀ src dst, FsOp.copyFile src dst ∉ publishBaseOps outputDir doc) ∧
    FsOp.writeFile (pyJoin outputDir "README.md") doc.main_readme ∈
      publishBaseOps outputDir doc ∧
    FsOp.writeFile (pyJoin (docsDir outputDir) "installation.md")
      doc.installation_guide ∈ publishBaseOps outputDir doc ∧
    FsOp.writeFile (pyJoin (docsDir outputDir) "scaling.md")
      doc.scaling_guide ∈ publishBaseOps outputDir doc ∧
    FsOp.writeFile (pyJoin (docsDir outputDir) "troubleshooting.md")
      doc.troubleshooting_guide ∈ publishBaseOps outputDir doc ∧
    FsOp.writeFile (pyJoin (docsDir outputDir) "index.md")
      (mainIndexContent doc) ∈ publishBaseOps outputDir doc ∧
    FsOp.writeFile (pyJoin (workflowDocsDir outputDir) "index.md")
      (workflowIndexContent doc) ∈ publishBaseOps outputDir doc ∧
    FsOp.writeFile (pyJoin (outputDocsDir outputDir) "index.md")
      (outputIndexContent doc) ∈ publishBaseOps outputDir doc ∧
    (∀ wd ∈ doc.workflow_docs,
      FsOp.writeFile (pyJoin (workflowDocsDir outputDir)
        (safeFilename wd.1 ++ ".md")) wd.2 ∈ publishBaseOps outputDir doc) ∧
    (∀ od ∈ doc.output_docs,
      FsOp.writeFile (pyJoin (outputDocsDir outputDir)
        (safeFilename od.1 ++ ".md")) od.2 ∈ publishBaseOps outputDir doc) ∧
    (∀ cd ∈ doc.code_docs,
      FsOp.writeFile (pyJoin3 (codeDocsDir outputDir) (dirName cd.1)
        (safeFilename (baseName cd.1) ++ ".md")) cd.2 ∈
        publishBaseOps outputDir doc) := by
  refine ⟨rfl, ?_, ?_, ?_, ?_, ?_, ?_, ?_, ?_, ?_, ?_, ?_⟩
  · intro src dst h
    unfold publishBaseOps at h
    rcases List.mem_append.mp h with h | h
    · rcases List.mem_append.mp h with h | h
      · rcases List.mem_append.mp h with h | h
        · rcases List.mem_append.mp h with h | h
          · simp [fixedWriteOps] at h
          · simp [workflowDocOps] at h
        · simp [outputDocOps] at h
      · rcases List.mem_bind.mp h with ⟨cd, _, hin⟩
        unfold codeDocOps at hin
        rcases List.mem_append.mp hin with h2 | h2
        · by_cases hdp : strEq (dirName cd.1) ""
          · rw [if_pos hdp] at h2
            exact absurd h2 (List.not_mem_nil _)
          · rw [if_neg hdp] at h2
            exact FsOp.noConfusion (List.mem_singleton.mp h2)
        · exact FsOp.noConfusion (List.mem_singleton.mp h2)
    · simp [createIndexOps] at h
  · unfold publishBaseOps
    exact List.mem_append_left _ (List.mem_append_left _
      (List.mem_append_left _ (List.mem_append_left _ (by
        simp [fixedWriteOps]))))
  · unfold publishBaseOps
    exact List.mem_append_left _ (List.mem_append_left _
      (List.mem_append_left _ (List.mem_append_left _ (by
        simp [fixedWriteOps]))))
  · unfold publishBaseOps
    exact List.mem_append_left _ (List.mem_append_left _
      (List.mem_append_left _ (List.mem_append_left _ (by
        simp [fixedWriteOps]))))
  · unfold publishBaseOps
    exact List.mem_append_left _ (List.mem_append_left _
      (List.mem_append_left _ (List.mem_append_left _ (by
        simp [fixedWriteOps]))))
  · unfold publishBaseOps
    exact List.mem_append_right _ (by simp [createIndexOps])
  · unfold publishBaseOps
    exact List.mem_append_right _ (by simp [createIndexOps])
  · unfold publishBaseOps
    exact List.mem_append_right _ (by simp [createIndexOps])
  · intro wd hwd
    have hmem : FsOp.writeFile (pyJoin (workflowDocsDir outputDir)
        (safeFilename wd.1 ++ ".md")) wd.2 ∈ workflowDocOps outputDir doc :=
      List.mem_map_of_mem _ hwd
    unfold publishBaseOps
    exact List.mem_append_left _ (List.mem_append_left _
      (List.mem_append_left _ (List.mem_append_right _ hmem)))
  · intro od hod
    have hmem : FsOp.writeFile (pyJoin (outputDocsDir outputDir)
        (safeFilename od.1 ++ ".md")) od.2 ∈ outputDocOps outputDir doc :=
      List.mem_map_of_mem _ hod
    unfold publishBaseOps
    exact List.mem_append_left _ (List.mem_append_left _
      (List.mem_append_right _ hmem))
  · intro cd hcd
    have hmem : FsOp.writeFile (pyJoin3 (codeDocsDir outputDir) (dirName cd.1)
        (safeFilename (baseName cd.1) ++ ".md")) cd.2 ∈
        doc.code_docs.bind (codeDocOps outputDir) := by
      apply List.mem_bind.mpr
      refine ⟨cd, hcd, ?_⟩
      unfold codeDocOps
      exact List.mem_append_right _ (List.mem_singleton.mpr rfl)
    unfold publishBaseOps
    exact List.mem_append_left _ (List.mem_append_right _ hmem)

/-- C9: with no credential on the command line and none in the
environment, main reports the missing key and returns before any work: no
clone, no analysis or model call, no publishing write. The last clause
covers every other unusable-credential combination. -/
theorem missing_credential_exits_before_work :
    mainSteps none none = [MainStep.reportMissingKey] ∧
    MainStep.cloneRepository ∉ mainSteps none none ∧
    MainStep.analyzeStructure ∉ mainSteps none none ∧
    MainStep.workflowAnalysis ∉ mainSteps none none ∧
    MainStep.outputAnalysis ∉ mainSteps none none ∧
    MainStep.generateDocumentation ∉ mainSteps none none ∧
    MainStep.publishDocs ∉ mainSteps none none ∧
    (∀ argsKey envKey : Option String,
      truthyKey (effectiveApiKey argsKey envKey) = false →
      mainSteps argsKey envKey = [MainStep.reportMissingKey]) := by
  refine ⟨rfl, by decide, by decide, by decide, by decide, by decide,
    by decide, ?_⟩
  intro a e h
  simp [mainSteps, h]

/-- Witness for C9: an empty credential string in both places is treated
as missing. -/
theorem missing_credential_exits_before_work_witness :
    mainSteps (some "") (some "") = [MainStep.reportMissingKey] :=
  missing_credential_exits_before_work.2.2.2.2.2.2.2 (some "") (some "") rfl

/-- Restatement of the DESCRIPTION scan following the amended claim text:
per line of the Imports section, only the field before the first comma of
the stripped line is collected (when non-empty); the remaining
comma-separated entries of the line are dropped. -/
def rImportsAmendedSpec (content : String) : List String :=
  if strContainsSub content "Imports:" then
    let importsSection :=
      (splitOnStr ((splitOnStr content "Imports:").getD 1 "") "\n\n").headD ""
    ((splitOnStr importsSection "\n").map firstCommaField).filter
      (fun e => !(strEq e ""))
  else []

/-- C8 (counterexample): a DESCRIPTION line listing two comma-separated
packages contributes only the first; the claimed list of both packages is
not produced. -/
theorem imports_comma_entries_counterexample :
    (identifyDependencies
      [{ path := "DESCRIPTION", readableAsText := true, size := 30,
         content := "Imports: pkgA, pkgB\n" }]).r = ["pkgA"] ∧
    (["pkgA"] : List String) ≠ ["pkgA", "pkgB"] :=
  ⟨by decide, by decide⟩

/-- C8 (amended): the DESCRIPTION scan collects, per line of the Imports
section, exactly the field before the first comma of the stripped line
when non-empty, dropping any further comma-separated entries on that
line. -/
theorem imports_first_entry_only (content : String) :
    rImports content = rImportsAmendedSpec content := by
  unfold rImports rImportsAmendedSpec
  by_cases h : strContainsSub content "Imports:"
  · simp only [h, if_true]
    simpa using foldl_append_if_eq firstCommaField (fun e => !(strEq e ""))
      (splitOnStr
        ((splitOnStr ((splitOnStr content "Imports:").getD 1 "") "\n\n").headD "")
        "\n") []
  · simp only [h, Bool.false_eq_true, if_false]

/-! Evaluation checks of the Python-string embedding against the
semantics of the Python primitives it models. -/

example : splitOnStr "aaa" "aa" = ["", "a"] := by decide
example : splitOnStr "" "," = [""] := by decide
example : splitOnStr "a,b,c" "," = ["a", "b", "c"] := by decide
example : splitOnStr "a\n\nb\nc" "\n\n" = ["a", "b\nc"] := by decide
example : splitextExt ".gitignore" = "" := by decide
example : splitextExt "a.PY" = ".PY" := by decide
example : splitextExt "archive.tar.gz" = ".gz" := by decide
example : splitextExt "noext" = "" := by decide
example : determineFileType "x.R" = "r" := by decide
example : determineFileType "x.PY" = "python" := by decide
example : determineFileType "Makefile" = "other" := by decide
example : baseName "a/b/c.py" = "c.py" := by decide
example : dirName "a/b/c.py" = "a/b" := by decide
example : dirName "c.py" = "" := by decide
example : pyJoin3 "out/docs/code" "" "f.md" = "out/docs/code/f.md" := by decide
example : pyJoin "out" "docs" = "out/docs" := by decide
example : strTrim "  a b \n" = "a b" := by decide
example : strReplace "main.py" "main.py" "main_py.md" = "main_py.md" := by decide
example : strContainsSub "xImports: a" "Imports:" = true := by decide
example : strContainsSub "nothing" "Imports:" = false := by decide
example : rImports "Imports: pkgA, pkgB\n" = ["pkgA"] := by decide
example : rImports "Imports:\n    dplyr,\n    ggplot2\n\nSuggests: x\n"
    = ["dplyr", "ggplot2"] := by decide
example : pythonRequirements "numpy\n# c\n\npandas==1.0\n"
    = ["numpy", "pandas==1.0"] := by decide
example : strLower "A.Rmd" = "a.rmd" := by decide
example : safeFilename "a b/c\\d:e" = "a_b_c_d_e" := by decide
example : firstCommaField "  dplyr , x" = "dplyr " := by decide

end LLMDoc
